import Mathlib

/-!
Verification of the Phoenix-AI repository (Telegram assistant bot with an
agentic tool-calling loop, approval gating, persistence and a monitor).

The Lean definitions below are a shallow embedding of the Python sources:
  - src/core/memory.py   (MemoryManager and its persisted rows)
  - src/core/brain.py    (PhoenixBrain.think and the tool dispatcher)
  - src/bot.py           (PhoenixBot.handle_message / handle_callback,
                          ALLOWED_USERS / is_authorized)
  - src/core/monitor.py  (OmniAgentMonitor.get_full_status)

External I/O (the model endpoint and the HTTP tool handlers) is abstracted
by oracles carried in an environment record; persisted state is explicit.
-/

namespace Phoenix

/-- A tool-argument mapping after json.loads; a malformed argument string
yields the empty mapping (brain.py 496-499).  Values are kept as strings. -/
abbrev Args := List (String × String)

/-- A queued media attachment: url and caption (brain.py pending_media). -/
abbrev Media := String × String

/-- One message of the context list handed to the model: role and content. -/
structure CtxMsg where
  role : String
  content : String
deriving Repr, DecidableEq

/-- A row of the conversations table (memory.py 18-33).  Rows are append-only
and created_at comes from func.now at insertion, so list order is exactly
created_at order; the newest-first query is therefore list reversal. -/
structure ConvRow where
  user_id : String
  role : String
  content : String
deriving Repr, DecidableEq

/-- A row of the pending_approvals table (memory.py 93-112).  Times are in
seconds. -/
structure ApprovalRow where
  id : Nat
  user_id : String
  action_type : String
  action_description : String
  action_payload : Args
  status : String
  created_at : Int
  expires_at : Int
  resolved_at : Option Int
deriving Repr, DecidableEq

/-- A row of the audit_logs table (memory.py 115-127). -/
structure AuditRow where
  user_id : String
  action : String
  details : Args
  status : String
  error_message : Option String
deriving Repr, DecidableEq

/-- The persistent store owned by MemoryManager: conversations, pending
approvals and the audit log, plus the next autoincrement approval id. -/
structure Mem where
  conversations : List ConvRow
  approvals : List ApprovalRow
  auditLog : List AuditRow
  next_id : Nat
deriving Repr, DecidableEq

/-- MemoryManager.add_message (memory.py 162-179): append one conversation
row. -/
def addMessage (m : Mem) (user role content : String) : Mem :=
  { m with conversations := m.conversations ++ [⟨user, role, content⟩] }

/-- The token-budget accumulation loop of get_conversation_for_context
(memory.py 216-228): include rows in the given order while the running
estimate (content length divided by 4) stays within max_tokens; the loop
breaks at the first row that would push the estimate over. -/
def contextAccum (maxTokens : Nat) : Nat → List ConvRow → List CtxMsg
  | _, [] => []
  | est, msg :: rest =>
    let t := msg.content.length / 4
    if maxTokens < est + t then []
    else ⟨msg.role, msg.content⟩ :: contextAccum maxTokens (est + t) rest

/-- MemoryManager.get_conversation_for_context (memory.py 206-232):
query the 100 most recent rows of the user ordered newest-first, then run
the budget loop over reversed(messages), that is oldest-first within the
window, returning the rows it accepted in chronological order. -/
def get_conversation_for_context (m : Mem) (user : String) (maxTokens : Nat) :
    List CtxMsg :=
  let messages := ((m.conversations.filter (fun r => r.user_id = user)).reverse).take 100
  contextAccum maxTokens 0 messages.reverse

/-- Modelled from the spec: context assembly as the specification words it
(spec 4.1 step 1 and 8): walk the history newest-first, accumulate turns
while the running estimate stays within the budget, then reverse the
accepted turns into chronological order.  Stated only to compare with
get_conversation_for_context, which is the code. -/
def specContextAssembly (m : Mem) (user : String) (maxTokens : Nat) :
    List CtxMsg :=
  let messages := ((m.conversations.filter (fun r => r.user_id = user)).reverse).take 100
  (contextAccum maxTokens 0 messages).reverse

/-- MemoryManager.create_approval (memory.py 391-409): insert one pending
row with expires_at ten minutes (600 seconds) after now, returning its id. -/
def create_approval (m : Mem) (user action desc : String) (payload : Args)
    (now : Int) : Nat × Mem :=
  (m.next_id,
   { m with
      approvals := m.approvals ++
        [⟨m.next_id, user, action, desc, payload, ("pending"), now, now + 600, none⟩],
      next_id := m.next_id + 1 })

/-- The information dict returned by get_pending_approval on a live row. -/
structure ApprovalInfo where
  id : Nat
  action_type : String
  description : String
  payload : Args
deriving Repr, DecidableEq

/-- The row scan of get_pending_approval (memory.py 411-437): find the first
row with the given id and status pending; if its expires_at has passed, set
its status to expired as a side effect of the read and report not-found. -/
def gpaGo (i : Nat) (now : Int) :
    List ApprovalRow → Option ApprovalInfo × List ApprovalRow
  | [] => (none, [])
  | r :: rs =>
    if r.id = i ∧ r.status = "pending" then
      if r.expires_at < now then
        (none, ({ r with status := ("expired") } : ApprovalRow) :: rs)
      else
        (some ⟨r.id, r.action_type, r.action_description, r.action_payload⟩, r :: rs)
    else
      let p := gpaGo i now rs
      (p.1, r :: p.2)

/-- MemoryManager.get_pending_approval (memory.py 411-437). -/
def get_pending_approval (m : Mem) (i : Nat) (now : Int) :
    Option ApprovalInfo × Mem :=
  let p := gpaGo i now m.approvals
  (p.1, { m with approvals := p.2 })

/-- The row update of resolve_approval (memory.py 439-451): the first row
with the given id, whatever its current status, gets status approved or
rejected and resolved_at set to now; a missing id changes nothing. -/
def raGo (i : Nat) (ap : Bool) (now : Int) : List ApprovalRow → List ApprovalRow
  | [] => []
  | r :: rs =>
    if r.id = i then
      ({ r with
          status := if ap then ("approved") else ("rejected"),
          resolved_at := some now } : ApprovalRow) :: rs
    else r :: raGo i ap now rs

/-- MemoryManager.resolve_approval (memory.py 439-451). -/
def resolve_approval (m : Mem) (i : Nat) (ap : Bool) (now : Int) : Mem :=
  { m with approvals := raGo i ap now m.approvals }

/-- MemoryManager.log_action (memory.py 455-470): append one audit row. -/
def log_action (m : Mem) (user action : String) (details : Args)
    (status : String) (err : Option String) : Mem :=
  { m with auditLog := m.auditLog ++ [⟨user, action, details, status, err⟩] }

/-- One tool invocation of a model reply (brain.py 492-499): call id, the
function name, and the argument mapping after the defensive json.loads. -/
structure ToolCall where
  call_id : String
  name : String
  args : Args
deriving Repr, DecidableEq

/-- One reply of the model endpoint as PhoenixBrain.think consumes it
(brain.py 481-509): either a transport error dict, or an assistant message
with optional content and a possibly empty tool_calls list. -/
inductive ModelMsg where
  | apiError (err : String)
  | message (content : Option String) (tool_calls : List ToolCall)
deriving Repr, DecidableEq

/-- True when a model reply carries at least one tool invocation, which is
the condition the loop branches on (brain.py 489). -/
def hasToolCalls : ModelMsg → Bool
  | .apiError _ => false
  | .message _ tcs => !tcs.isEmpty

/-- The external world as seen by the bot: the model endpoint (indexed by
the number of model calls already made this turn; any dependence of the
model on the transcript is absorbed into the choice of this oracle), the
string result each tool handler produces (handlers never raise past the
dispatcher, brain.py 622-623, so a total string result is faithful), and
the media a handler may queue into pending_media. -/
structure BotEnv where
  reply : Nat → ModelMsg
  handlerResult : String → Args → String
  handlerMedia : String → Args → Option Media

/-- The name-to-handler dispatch of PhoenixBrain._execute_tool
(brain.py 542-623), transcribed branch by branch; none is the final
else branch for an unknown tool. -/
def executeToolDispatch (name : String) : Option String :=
  if name = "check_omni_agent" then some ("_tool_check_omni")
  else if name = "run_animal_facts" then some ("_tool_run_animal_facts")
  else if name = "check_task" then some ("_tool_check_task")
  else if name = "test_overlay" then some ("_tool_test_overlay")
  else if name = "get_omni_logs" then some ("_tool_get_logs")
  else if name = "get_post_history" then some ("_tool_get_post_history")
  else if name = "get_project_stats" then some ("_tool_get_project_stats")
  else if name = "update_schedule" then some ("_tool_update_schedule")
  else if name = "toggle_scheduler" then some ("_tool_toggle_scheduler")
  else if name = "add_animal" then some ("_tool_add_animal")
  else if name = "list_themes" then some ("_tool_list_themes")
  else if name = "create_theme" then some ("_tool_create_theme")
  else if name = "run_theme" then some ("_tool_run_theme")
  else if name = "set_theme_source" then some ("_tool_set_theme_source")
  else if name = "delete_theme" then some ("_tool_delete_theme")
  else if name = "read_github_file" then some ("_tool_read_file")
  else if name = "edit_github_file" then some ("_tool_edit_file")
  else if name = "list_github_files" then some ("_tool_list_files")
  else if name = "search_github_code" then some ("_tool_search_code")
  else if name = "get_railway_logs" then some ("_tool_railway_logs")
  else if name = "send_video" then some ("_tool_send_video")
  else none

/-- Run one tool call through _execute_tool: the dispatched handler runs
immediately (there is no approval gate in the dispatcher) and may queue
media; an unknown name yields the Unknown-tool text and no handler runs.
Returns (result text, invoked handlers with their arguments, media). -/
def runToolCall (env : BotEnv) (media : Option Media) (tc : ToolCall) :
    String × List (String × Args) × Option Media :=
  match executeToolDispatch tc.name with
  | none => ("Unknown tool: " ++ tc.name, [], media)
  | some h =>
    (env.handlerResult h tc.args, [(h, tc.args)],
      match env.handlerMedia h tc.args with
      | some m => some m
      | none => media)

/-- The per-iteration handling of a tool-call list (brain.py 492-507):
each invocation is executed sequentially in the order received. -/
def runToolCalls (env : BotEnv) :
    Option Media → List ToolCall → List (String × Args) × Option Media
  | media, [] => ([], media)
  | media, tc :: rest =>
    let r := runToolCall env media tc
    let rel := runToolCalls env r.2.2 rest
    (r.2.1 ++ rel.1, rel.2)

/-- What one call of PhoenixBrain.think produced: the response text, the
optional video of the returned dict, how many model calls were made, which
handlers were invoked with which arguments, and the store afterwards. -/
structure ThinkOut where
  response : String
  video : Option Media
  modelCalls : Nat
  executed : List (String × Args)
  mem : Mem

/-- The bounded agentic loop of PhoenixBrain.think (brain.py 479-517).
Fuel is the remaining iterations (starting at max_iterations = 5); callIdx
counts the model calls already made.  An error reply aborts with an Error
dict; a reply with tool calls executes them all and iterates; a reply
without tool calls persists the text as an assistant turn and returns it
(with any queued media); exhausted fuel returns the fixed fallback dict,
which carries no video and persists nothing. -/
def thinkLoop (env : BotEnv) (user : String) :
    Mem → Option Media → List (String × Args) → Nat → Nat → ThinkOut
  | mem, _, exec, callIdx, 0 =>
    ⟨"Request took too many steps. Please try again.", none, callIdx, exec, mem⟩
  | mem, media, exec, callIdx, fuel + 1 =>
    match env.reply callIdx with
    | .apiError e => ⟨"Error: " ++ e, none, callIdx + 1, exec, mem⟩
    | .message content tcs =>
      if tcs.isEmpty then
        let final := content.getD ("Done.")
        ⟨final, media, callIdx + 1, exec, addMessage mem user ("assistant") final⟩
      else
        let step := runToolCalls env media tcs
        thinkLoop env user mem step.2 (exec ++ step.1) (callIdx + 1) fuel

/-- PhoenixBrain.think (brain.py 463-517): reset pending_media, fetch the
bounded context (max_tokens 10000; it feeds only the model call, which the
reply oracle abstracts), persist the user turn, then run the loop with
max_iterations = 5. -/
def think (env : BotEnv) (mem : Mem) (user msg : String) : ThinkOut :=
  let _ctx := get_conversation_for_context mem user 10000
  thinkLoop env user (addMessage mem user ("user") msg) none [] 0 5

/-- A Python value as far as bot.py manipulates the result of think:
either a string or a dict. -/
inductive PyVal where
  | str (s : String)
  | dict (entries : List (String × PyVal))
deriving Repr

/-- Python len on such a value: character count of a string, number of
keys of a dict. -/
def pyLen : PyVal → Nat
  | .str s => s.length
  | .dict es => es.length

/-- Lookup of a key among dict entries (keys unique). -/
def entriesGet (k : String) : List (String × PyVal) → Option PyVal
  | [] => none
  | p :: ps => if p.1 = k then some p.2 else entriesGet k ps

/-- Python dict .get on such a value (none on a string). -/
def pyDictGet (k : String) : PyVal → Option PyVal
  | .str _ => none
  | .dict es => entriesGet k es

/-- The dict PhoenixBrain.think returns (brain.py 484, 512-515, 517): a
mapping with key response, plus key video when media was queued on the
final-text path; the error and fallback paths build a fresh dict with only
the response key. -/
def thinkReturnValue (o : ThinkOut) : PyVal :=
  match o.video with
  | none => .dict [(("response"), .str o.response)]
  | some m =>
    .dict [(("response"), .str o.response),
           (("video"), .dict [(("url"), .str m.1), (("caption"), .str m.2)])]

/-- PhoenixBot.handle_message (bot.py 232-263), reply side: the value that
came back from think is length-checked and handed to reply_text as a
whole.  When len(response) exceeds 4000 the chunking slice response[i:i+4000]
is applied to the dict, which raises TypeError and the outer except replies
with the error text; that branch is unreachable because the dict has at
most two keys. -/
def handleMessageReplies (env : BotEnv) (mem : Mem) (user msg : String) :
    List PyVal :=
  let response := thinkReturnValue (think env mem user msg)
  if 4000 < pyLen response then
    [PyVal.str ("Sorry, I encountered an error: TypeError\n\nPlease try again or rephrase your request.")]
  else [response]

/-- One entry of the in-memory approval cache self.pending_approvals
(bot.py 286-291): stored tool name, input mapping, owning user id and
creation time.  Note it carries no expires_at. -/
structure CachedApproval where
  tool : String
  input : Args
  user_id : String
  created_at : Int
deriving Repr, DecidableEq

/-- The process state of PhoenixBot: the in-memory approval cache keyed by
approval id (a dict, so keys are unique) and the durable store. -/
structure BotState where
  pending_approvals : List (String × CachedApproval)
  mem : Mem

/-- Outbound effects of handle_callback on the chat: message edits and
popup alerts. -/
inductive CbReply where
  | editText (s : String)
  | alert (s : String)
deriving Repr, DecidableEq

/-- The methods PhoenixBrain actually defines (brain.py).  There is no
method named execute_tool: the public entry point is think and the
dispatcher is the private _execute_tool (brain.py 542). -/
def phoenixBrainMethods : List String :=
  ["__init__", "_get_system_prompt", "_get_tools", "think", "_call_claude",
   "_execute_tool", "_tool_check_omni", "_tool_run_animal_facts",
   "_tool_check_task", "_tool_test_overlay", "_tool_get_logs",
   "_tool_get_post_history", "_tool_get_project_stats",
   "_tool_update_schedule", "_tool_toggle_scheduler", "_tool_add_animal",
   "_tool_list_themes", "_tool_create_theme", "_tool_run_theme",
   "_tool_set_theme_source", "_tool_delete_theme", "_tool_read_file",
   "_tool_edit_file", "_tool_list_files", "_tool_search_code",
   "_tool_railway_logs", "_tool_send_video"]

/-- Python attribute lookup on the brain: true when the named method
exists, else the access raises AttributeError. -/
def brainHasAttr (name : String) : Bool :=
  phoenixBrainMethods.contains name

/-- The message of the AttributeError raised by looking up a missing
method on PhoenixBrain (CPython quotes the class and attribute names; the
quotes are immaterial here). -/
def attributeErrorMsg (attr : String) : String :=
  "AttributeError: PhoenixBrain object has no attribute " ++ attr

/-- A compact rendering of the details popup payload (bot.py 387-392);
its exact JSON formatting is immaterial to every property below. -/
def renderArgs (a : Args) : String :=
  String.intercalate (", ") (a.map (fun p => p.1 ++ ("=") ++ p.2))

/-- Split a character list on a separator character, keeping empty
groups, as Python str.split does for an explicit separator. -/
def splitChars (sep : Char) : List Char → List (List Char)
  | [] => [[]]
  | c :: cs =>
    let r := splitChars sep cs
    if c = sep then [] :: r
    else
      match r with
      | [] => [[c]]
      | g :: gs => (c :: g) :: gs

/-- Python str.split with a one-character separator (bot.py 331 splits the
callback data on the colon; bot.py 43 splits the whitelist on the comma). -/
def pySplit (s : String) (sep : Char) : List String :=
  (splitChars sep s.data).map (fun cs => String.mk cs)

/-- Drop leading whitespace characters. -/
def dropLeadingWs : List Char → List Char
  | [] => []
  | c :: cs => if c.isWhitespace then dropLeadingWs cs else c :: cs

/-- Python str.strip: drop whitespace from both ends. -/
def pyStrip (s : String) : String :=
  String.mk (dropLeadingWs ((dropLeadingWs s.data.reverse).reverse))

/-- Python string slicing s[:n], counted in code points. -/
def pyTake (s : String) (n : Nat) : String :=
  String.mk (s.data.take n)

/-- Python dict lookup in the in-memory approval cache (keys unique). -/
def cacheLookup (aid : String) :
    List (String × CachedApproval) → Option CachedApproval
  | [] => none
  | p :: ps => if p.1 = aid then some p.2 else cacheLookup aid ps

/-- What one handle_callback call produced: the chat replies in order, the
handlers it invoked, and the process state afterwards. -/
structure CbOut where
  replies : List CbReply
  executed : List (String × Args)
  st : BotState

/-- PhoenixBot.handle_callback (bot.py 325-392), transcribed.  The data
string is split on the colon into action and approval id; a missing, empty
or uncached id answers with the expired text; a non-owning user gets an
alert and nothing changes.  On approve the code evaluates
self.brain.execute_tool: PhoenixBrain defines no such attribute, so the
lookup raises AttributeError inside the try, the except logs a failed
audit row and edits in the failure text; the success arm (which would run
the handler and log success) is kept verbatim but is unreachable.  Both
arms then delete the cache entry.  Reject logs a rejected row and deletes
the entry.  Nothing in this function reads expires_at or calls
get_pending_approval or resolve_approval, so the durable row is never
touched. -/
def handle_callback (env : BotEnv) (st : BotState) (fromUser : String)
    (data : String) : CbOut :=
  let parts := pySplit data ':'
  let action := parts.headD ("")
  match parts[1]? with
  | none => ⟨[.editText ("This approval has expired.")], [], st⟩
  | some aid =>
    if aid = "" then ⟨[.editText ("This approval has expired.")], [], st⟩
    else
      match cacheLookup aid st.pending_approvals with
      | none => ⟨[.editText ("This approval has expired.")], [], st⟩
      | some appr =>
        if appr.user_id ≠ fromUser then
          ⟨[.alert ("This isn\x27t your approval request.")], [], st⟩
        else if action = "approve" then
          if brainHasAttr ("execute_tool") then
            let r := runToolCall env none ⟨"", appr.tool, appr.input⟩
            ⟨[.editText ("✅ Approved! Executing..."),
              .editText ("✅ Done!\n\n" ++ r.1)],
             r.2.1,
             ⟨st.pending_approvals.filter (fun p => p.1 ≠ aid),
              log_action st.mem fromUser appr.tool appr.input ("success") none⟩⟩
          else
            let e := attributeErrorMsg ("execute_tool")
            ⟨[.editText ("✅ Approved! Executing..."),
              .editText ("❌ Failed: " ++ pyTake e 200)],
             [],
             ⟨st.pending_approvals.filter (fun p => p.1 ≠ aid),
              log_action st.mem fromUser appr.tool appr.input ("failed") (some e)⟩⟩
        else if action = "reject" then
          ⟨[.editText ("❌ Action rejected.")], [],
           ⟨st.pending_approvals.filter (fun p => p.1 ≠ aid),
            log_action st.mem fromUser appr.tool appr.input ("rejected") none⟩⟩
        else if action = "details" then
          let d := renderArgs appr.input
          let d := if 500 < d.length then pyTake d 500 ++ "..." else d
          ⟨[.alert ("Details:\n" ++ d)], [], st⟩
        else ⟨[], [], st⟩

/-- The parsing of TELEGRAM_ALLOWED_USERS (bot.py 42-44): take the
environment value (empty when unset), split on commas, strip each entry
and keep the non-empty ones. -/
def parseAllowedUsers (envVal : Option String) : List String :=
  ((pySplit (envVal.getD ("")) ',').map pyStrip).filter (fun u => u ≠ "")

/-- PhoenixBot.is_authorized (bot.py 79-83): an empty whitelist allows
every user; otherwise the decimal string form of the user id must appear
in the list. -/
def is_authorized (allowed : List String) (uid : Nat) : Bool :=
  if allowed.isEmpty then true else decide ((toString uid) ∈ allowed)

/-- Result of OmniAgentMonitor.check_health (monitor.py 34-43): the status
field of the returned dict and the error or code text used in the issue
message. -/
structure HealthResult where
  status : String
  info : String
deriving Repr, DecidableEq

/-- Result of OmniAgentMonitor.check_tasks (monitor.py 45-69) as
get_full_status consumes it: the dead_letter and failed counts read with
.get and default 0 (an error dict carries neither key, hence 0). -/
structure TasksResult where
  dead_letter : Nat
  failed : Nat
deriving Repr, DecidableEq

/-- The last successful run found by check_scheduler, as the staleness
check of get_full_status consumes it: whether the timestamp parse
succeeded (the try block, monitor.py 115-123) and how many seconds ago the
run was.  The code compares hours as a float quotient; comparing seconds
against maxHours*3600 is the same predicate. -/
structure LastRun where
  parseOk : Bool
  secondsAgo : Int
deriving Repr, DecidableEq

/-- Result of OmniAgentMonitor.check_scheduler (monitor.py 71-93) as
get_full_status consumes it. -/
structure SchedulerResult where
  last_success : Option LastRun
deriving Repr, DecidableEq

/-- The staleness issue (monitor.py 114-123): appended only when a last
success exists, its timestamp parsed, and it lies more than maxHours in
the past (a parse failure is swallowed by the bare except). -/
def staleIssue (maxHours : Int) (lr : LastRun) : List String :=
  if lr.parseOk = true ∧ maxHours * 3600 < lr.secondsAgo then
    [("No successful post in over ") ++ toString maxHours ++ (" hours")]
  else []

/-- The issue derivation of get_full_status (monitor.py 102-123): one
issue for an unhealthy health check, one for a non-empty dead-letter
queue, one for more than two failed tasks, one for staleness. -/
def deriveIssues (h : HealthResult) (t : TasksResult) (s : SchedulerResult) :
    List String :=
  (if h.status ≠ "healthy" then [("Health check failed: ") ++ h.info] else []) ++
  (if 0 < t.dead_letter then [toString t.dead_letter ++ (" tasks in dead letter queue")] else []) ++
  (if 2 < t.failed then [toString t.failed ++ (" failed tasks")] else []) ++
  (match s.last_success with
   | none => []
   | some lr => staleIssue 8 lr)

/-- The overall field of get_full_status (monitor.py 127): critical when
more than two issues, else warning when any issue, else healthy. -/
def overallStatus (issues : List String) : String :=
  if 2 < issues.length then ("critical")
  else if issues.isEmpty then ("healthy")
  else ("warning")

/-- The overall classification computed by OmniAgentMonitor.get_full_status
(monitor.py 95-132) from the three check results. -/
def get_full_status_overall (h : HealthResult) (t : TasksResult)
    (s : SchedulerResult) : String :=
  overallStatus (deriveIssues h t s)

/-! Concrete inputs used by the evaluation theorems and witnesses below. -/

/-- An empty store. -/
def memEmpty : Mem := ⟨[], [], [], 1⟩

/-- A trivial oracle environment for evaluations that never consult it. -/
def envUnit : BotEnv :=
  { reply := fun _ => .message (some ("ok")) [],
    handlerResult := fun _ _ => "ok",
    handlerMedia := fun _ _ => none }

/-- A model run that requests the gated write tool on its first reply and
answers with plain text on the second. -/
def envC1 : BotEnv :=
  { reply := fun i =>
      if i = 0 then
        .message none
          [⟨"call_1", "edit_github_file",
            [(("repo"), ("Omni-Agent")), (("path"), ("app.py"))]⟩]
      else .message (some ("Edited the file.")) [],
    handlerResult := fun _ _ => "FILE UPDATED!",
    handlerMedia := fun _ _ => none }

/-- A model that requests a tool call on every reply. -/
def envC6 : BotEnv :=
  { reply := fun _ => .message none [⟨"c", "check_omni_agent", []⟩],
    handlerResult := fun _ _ => "ok",
    handlerMedia := fun _ _ => none }

/-- Cache entry for an approval created by user 7 at t = 100 s. -/
def cacheC2 : List (String × CachedApproval) :=
  [(("7_100"),
    ⟨"edit_github_file", [(("repo"), ("X")), (("path"), ("y.py"))], "7", 100⟩)]

/-- The matching durable row: pending, created at 100 s, expires at 700 s
(the ten-minute TTL of create_approval). -/
def memC2 : Mem :=
  ⟨[], [⟨1, "7", "edit_github_file", "Write to file: y.py",
         [(("repo"), ("X")), (("path"), ("y.py"))], "pending", 100, 700, none⟩],
   [], 2⟩

/-- Cache entry for a second, unexpired approval owned by user 7. -/
def cacheC3 : List (String × CachedApproval) :=
  [(("7_200"),
    ⟨"edit_github_file",
     [(("repo"), ("Omni-Agent")), (("path"), ("app.py"))], "7", 200⟩)]

/-- Its durable row: pending, created at 200 s, expires at 800 s. -/
def memC3 : Mem :=
  ⟨[], [⟨2, "7", "edit_github_file", "Write to file: app.py",
         [(("repo"), ("Omni-Agent")), (("path"), ("app.py"))], "pending",
         200, 800, none⟩],
   [], 3⟩

/-- Two stored turns of user 7, older then newer, both eight characters
long (two estimated tokens each). -/
def memC4 : Mem :=
  ⟨[⟨"7", "user", "aaaaaaaa"⟩, ⟨"7", "user", "bbbbbbbb"⟩], [], [], 1⟩

/-- A store holding one already-approved approval, resolved at t = 50 s. -/
def memC5 : Mem :=
  ⟨[], [⟨1, "7", "edit_github_file", "Write to file: y.py", [], "approved",
         0, 600, some 50⟩], [], 2⟩

/-- An already-expired row used by the witness of the amended C5. -/
def rowC5w : ApprovalRow :=
  ⟨3, "7", "edit_github_file", "Write to file: y.py", [], "expired", 0, 600,
   some 90⟩

/-- A pending row created at t = 0 s, expiring at 600 s. -/
def rowC7 : ApprovalRow :=
  ⟨1, "7", "edit_github_file", "Write to file: y.py", [], "pending", 0, 600,
   none⟩

end Phoenix

namespace Phoenix

/-! Theorems settling the claims. -/

/-- C1: the claim says the approval-required tool edit_github_file is never
executed in the turn that requests it and that a PendingApproval is
synthesized instead.  Evaluating think on a turn whose first model reply
requests edit_github_file shows the opposite: the dispatcher runs
_tool_edit_file inline, no approval row is created, the loop keeps
iterating and returns the second reply after two model calls. -/
theorem c1_gated_tool_executes_inline :
    (think envC1 memEmpty ("7") ("edit app.py")).executed
      = [(("_tool_edit_file"),
          [(("repo"), ("Omni-Agent")), (("path"), ("app.py"))])] ∧
    (think envC1 memEmpty ("7") ("edit app.py")).mem.approvals = [] ∧
    (think envC1 memEmpty ("7") ("edit app.py")).response = "Edited the file." ∧
    (think envC1 memEmpty ("7") ("edit app.py")).modelCalls = 2 :=
  ⟨rfl, rfl, rfl, rfl⟩

/-- C2: the claim says an approve arriving after expires_at is answered
with an expired notice after an authoritative expiry check.  Evaluating
handle_callback on an approve for a cached approval whose durable row
expired at 700 s (the press arriving at 760 s, eleven minutes after a
creation at 100 s) shows no expiry check happens: the caller is told
Approved then Failed, the durable row stays pending (never expired), and
the one audit row has status failed. -/
theorem c2_no_expiry_check_on_resolution :
    (handle_callback envUnit ⟨cacheC2, memC2⟩ ("7") ("approve:7_100")).replies
      = [CbReply.editText ("✅ Approved! Executing..."),
         CbReply.editText
           ("❌ Failed: " ++ pyTake (attributeErrorMsg ("execute_tool")) 200)] ∧
    ((handle_callback envUnit ⟨cacheC2, memC2⟩ ("7")
        ("approve:7_100")).st.mem.approvals.map (fun r => r.status))
      = [("pending")] ∧
    ((handle_callback envUnit ⟨cacheC2, memC2⟩ ("7")
        ("approve:7_100")).st.mem.auditLog.map (fun a => a.status))
      = [("failed")] ∧
    memC2.approvals.map (fun r => r.expires_at) = [700] :=
  ⟨rfl, rfl, rfl, rfl⟩

/-- C3: the claim says an approve from the owning user invokes the stored
handler, logs one success audit row and leaves the durable row approved.
Evaluating handle_callback on exactly such an event shows what the code
does instead: the attribute lookup of execute_tool fails (PhoenixBrain
only defines _execute_tool), so no handler runs, the single audit row has
status failed carrying the AttributeError text, the cache entry is
removed, and the durable row remains pending, never approved. -/
theorem c3_approve_never_runs_handler :
    (handle_callback envUnit ⟨cacheC3, memC3⟩ ("7") ("approve:7_200")).executed
      = [] ∧
    ((handle_callback envUnit ⟨cacheC3, memC3⟩ ("7")
        ("approve:7_200")).st.mem.auditLog.map
          (fun a => (a.status, a.error_message)))
      = [(("failed"), some (attributeErrorMsg ("execute_tool")))] ∧
    (handle_callback envUnit ⟨cacheC3, memC3⟩ ("7")
        ("approve:7_200")).st.pending_approvals = [] ∧
    ((handle_callback envUnit ⟨cacheC3, memC3⟩ ("7")
        ("approve:7_200")).st.mem.approvals.map (fun r => r.status))
      = [("pending")] :=
  ⟨rfl, rfl, rfl, rfl⟩

/-- C4: the claim says context assembly walks the history newest-first
under the token budget and reverses at the end.  With two stored turns of
two estimated tokens each and a budget of three, the code keeps only the
OLDEST turn (it iterates reversed(messages), oldest-first within the
100-row window, and budgets from that end), while the walk the claim
describes would keep only the newest turn. -/
theorem c4_budget_walk_keeps_oldest :
    get_conversation_for_context memC4 ("7") 3 = [⟨"user", "aaaaaaaa"⟩] ∧
    specContextAssembly memC4 ("7") 3 = [⟨"user", "bbbbbbbb"⟩] :=
  ⟨rfl, rfl⟩

/-- C5, counterexample: the claim says a resolution attempt on an
already-approved approval leaves status and resolved_at unchanged.
Resolving the approved row of memC5 again with the reject flag changes
its status to rejected and its resolved_at from 50 to 3600. -/
theorem c5_counterexample :
    memC5.approvals.map (fun r => (r.status, r.resolved_at))
      = [(("approved"), some 50)] ∧
    ((resolve_approval memC5 1 false 3600).approvals.map
        (fun r => (r.status, r.resolved_at)))
      = [(("rejected"), some 3600)] :=
  ⟨rfl, rfl⟩

/-- resolve_approval skips rows whose id differs. -/
theorem raGo_append (i : Nat) (ap : Bool) (now : Int)
    (l₁ l₂ : List ApprovalRow) (h : ∀ s ∈ l₁, s.id ≠ i) :
    raGo i ap now (l₁ ++ l₂) = l₁ ++ raGo i ap now l₂ := by
  induction l₁ with
  | nil => rfl
  | cons a l ih =>
    have ha : a.id ≠ i := h a (List.mem_cons_self a l)
    simp [raGo, ha, ih (fun s hs => h s (List.mem_cons_of_mem a hs))]

/-- C5, amended: resolve_approval applies no terminal-status guard.  The
first row carrying the requested id, whatever its current status
(pending, approved, rejected or expired), has its status overwritten with
approved or rejected per the flag and its resolved_at set to now; only a
missing id leaves the store unchanged. -/
theorem c5_resolution_overwrites (cs : List ConvRow) (al : List AuditRow)
    (nid : Nat) (l₁ l₂ : List ApprovalRow) (r : ApprovalRow) (i : Nat)
    (ap : Bool) (now : Int) (h1 : ∀ s ∈ l₁, s.id ≠ i) (h2 : r.id = i) :
    (resolve_approval ⟨cs, l₁ ++ r :: l₂, al, nid⟩ i ap now).approvals
      = l₁ ++ ({ r with
                  status := if ap then ("approved") else ("rejected"),
                  resolved_at := some now } : ApprovalRow) :: l₂ := by
  simp [resolve_approval, raGo_append i ap now l₁ (r :: l₂) h1, raGo, h2]

/-- Witness for the amended C5: re-resolving an already-expired row with
the approve flag overwrites it to approved with a fresh resolved_at. -/
theorem c5_resolution_overwrites_witness :
    (resolve_approval ⟨[], [rowC5w], [], 4⟩ 3 true 900).approvals
      = [({ rowC5w with status := "approved", resolved_at := some 900 } :
            ApprovalRow)] :=
  c5_resolution_overwrites [] [] 4 [] [] rowC5w 3 true 900
    (fun _ hs => nomatch hs) rfl

/-- When every model reply in range still carries tool calls, the loop
burns all its fuel, counts one model call per iteration, and neither
touches the store nor returns media. -/
theorem thinkLoop_all_tool_calls (env : BotEnv) (user : String) :
    ∀ (fuel callIdx : Nat) (mem : Mem) (media : Option Media)
      (exec : List (String × Args)),
      (∀ i, callIdx ≤ i → i < callIdx + fuel → hasToolCalls (env.reply i) = true) →
      (thinkLoop env user mem media exec callIdx fuel).response
          = "Request took too many steps. Please try again." ∧
      (thinkLoop env user mem media exec callIdx fuel).modelCalls = callIdx + fuel ∧
      (thinkLoop env user mem media exec callIdx fuel).mem = mem := by
  intro fuel
  induction fuel with
  | zero => intro callIdx mem media exec _; exact ⟨rfl, rfl, rfl⟩
  | succ n ih =>
    intro callIdx mem media exec h
    have h0 : hasToolCalls (env.reply callIdx) = true :=
      h callIdx (Nat.le_refl _) (by omega)
    cases hr : env.reply callIdx with
    | apiError e => rw [hr] at h0; simp [hasToolCalls] at h0
    | message content tcs =>
      rw [hr] at h0
      have hne : tcs.isEmpty = false := by
        cases he : tcs.isEmpty
        · rfl
        · rw [hasToolCalls, he] at h0; simp at h0
      obtain ⟨ha, hb, hc⟩ :=
        ih (callIdx + 1) mem (runToolCalls env media tcs).2
          (exec ++ (runToolCalls env media tcs).1)
          (fun i h1i h2i => h i (by omega) (by omega))
      have hstep : thinkLoop env user mem media exec callIdx (n + 1)
          = thinkLoop env user mem (runToolCalls env media tcs).2
              (exec ++ (runToolCalls env media tcs).1) (callIdx + 1) n := by
        simp only [thinkLoop]
        rw [hr]
        simp [hne]
      rw [hstep]
      exact ⟨ha, by rw [hb]; omega, hc⟩

/-- C6: when every model reply carries tool invocations, think performs
exactly max_iterations = 5 model calls, returns the fixed too-many-steps
fallback, and persists no assistant turn: the store afterwards holds
exactly the user turn appended before the loop. -/
theorem c6_iteration_cap (env : BotEnv) (mem : Mem) (user msg : String)
    (h : ∀ i, i < 5 → hasToolCalls (env.reply i) = true) :
    (think env mem user msg).modelCalls = 5 ∧
    (think env mem user msg).response
      = "Request took too many steps. Please try again." ∧
    (think env mem user msg).mem = addMessage mem user ("user") msg := by
  obtain ⟨h1, h2, h3⟩ :=
    thinkLoop_all_tool_calls env user 5 0 (addMessage mem user ("user") msg)
      none [] (fun i _ hi => h i (by omega))
  exact ⟨by simpa [think] using h2, by simpa [think] using h1,
         by simpa [think] using h3⟩

/-- Witness for C6 at a concrete model stub that always requests a tool. -/
theorem c6_iteration_cap_witness :
    (think envC6 memEmpty ("7") ("loop")).modelCalls = 5 ∧
    (think envC6 memEmpty ("7") ("loop")).response
      = "Request took too many steps. Please try again." ∧
    (think envC6 memEmpty ("7") ("loop")).mem
      = addMessage memEmpty ("7") ("user") ("loop") :=
  c6_iteration_cap envC6 memEmpty ("7") ("loop") (fun _ _ => rfl)

/-- get_pending_approval skips rows whose id differs from the target. -/
theorem gpaGo_append_skip (i : Nat) (now : Int) (l₁ l₂ : List ApprovalRow)
    (h : ∀ s ∈ l₁, s.id ≠ i) :
    gpaGo i now (l₁ ++ l₂) = ((gpaGo i now l₂).1, l₁ ++ (gpaGo i now l₂).2) := by
  induction l₁ with
  | nil => rfl
  | cons a l ih =>
    have ha : ¬(a.id = i ∧ a.status = "pending") :=
      fun hc => h a (List.mem_cons_self a l) hc.1
    simp [gpaGo, ha, ih (fun s hs => h s (List.mem_cons_of_mem a hs))]

/-- get_pending_approval finds nothing and changes nothing when no row is
both the target id and pending. -/
theorem gpaGo_none_of_no_pending (i : Nat) (now : Int) (l : List ApprovalRow)
    (h : ∀ s ∈ l, ¬(s.id = i ∧ s.status = "pending")) :
    gpaGo i now l = (none, l) := by
  induction l with
  | nil => rfl
  | cons a l ih =>
    have ha := h a (List.mem_cons_self a l)
    simp [gpaGo, ha, ih (fun s hs => h s (List.mem_cons_of_mem a hs))]

/-- C7: a lookup of a pending approval whose expires_at precedes the
current time returns none and flips exactly that row to expired as a side
effect of the read; any later lookup of the same id returns none again
and leaves the store untouched, so the transition happens exactly once. -/
theorem c7_lazy_expiry_once (cs : List ConvRow) (al : List AuditRow)
    (nid : Nat) (l₁ l₂ : List ApprovalRow) (r : ApprovalRow) (i : Nat)
    (now now2 : Int)
    (h1 : ∀ s ∈ l₁, s.id ≠ i) (h2 : ∀ s ∈ l₂, s.id ≠ i)
    (hid : r.id = i) (hst : r.status = "pending") (hex : r.expires_at < now) :
    get_pending_approval ⟨cs, l₁ ++ r :: l₂, al, nid⟩ i now
      = (none,
         ⟨cs, l₁ ++ ({ r with status := ("expired") } : ApprovalRow) :: l₂,
          al, nid⟩) ∧
    get_pending_approval
        ⟨cs, l₁ ++ ({ r with status := ("expired") } : ApprovalRow) :: l₂,
         al, nid⟩ i now2
      = (none,
         ⟨cs, l₁ ++ ({ r with status := ("expired") } : ApprovalRow) :: l₂,
          al, nid⟩) := by
  constructor
  · have hskip := gpaGo_append_skip i now l₁ (r :: l₂) h1
    simp [get_pending_approval, hskip, gpaGo, hid, hst, hex]
  · have hall : ∀ s ∈ l₁ ++ ({ r with status := ("expired") } : ApprovalRow) :: l₂,
        ¬(s.id = i ∧ s.status = "pending") := by
      intro s hs
      rcases List.mem_append.1 hs with hm | hm
      · exact fun hc => h1 s hm hc.1
      · rcases List.mem_cons.1 hm with rfl | hm
        · rintro ⟨-, hps⟩
          simp at hps
        · exact fun hc => h2 s hm hc.1
    simp [get_pending_approval, gpaGo_none_of_no_pending i now2 _ hall]

/-- Witness for C7: the pending row of rowC7 (expires at 600 s) looked up
at 660 s flips to expired and reads as not-found; a second lookup at
900 s changes nothing. -/
theorem c7_lazy_expiry_once_witness :
    get_pending_approval ⟨[], [rowC7], [], 2⟩ 1 660
      = (none, ⟨[], [({ rowC7 with status := "expired" } : ApprovalRow)], [], 2⟩) ∧
    get_pending_approval
        ⟨[], [({ rowC7 with status := "expired" } : ApprovalRow)], [], 2⟩ 1 900
      = (none, ⟨[], [({ rowC7 with status := "expired" } : ApprovalRow)], [], 2⟩) :=
  c7_lazy_expiry_once [] [] 2 [] [] rowC7 1 660 900
    (fun _ hs => nomatch hs) (fun _ hs => nomatch hs) rfl rfl (by decide)

/-- C8: over all check results, the overall field of get_full_status is
healthy exactly when the derived issue list is empty, warning exactly when
it holds one or two issues, and critical exactly when it holds more than
two. -/
theorem c8_overall_classification (h : HealthResult) (t : TasksResult)
    (s : SchedulerResult) :
    (get_full_status_overall h t s = "healthy" ↔
      (deriveIssues h t s).length = 0) ∧
    (get_full_status_overall h t s = "warning" ↔
      ((deriveIssues h t s).length = 1 ∨ (deriveIssues h t s).length = 2)) ∧
    (get_full_status_overall h t s = "critical" ↔
      2 < (deriveIssues h t s).length) := by
  unfold get_full_status_overall overallStatus
  generalize (deriveIssues h t s) = l
  have hcw : ("critical" : String) ≠ "warning" := by decide
  have hch : ("critical" : String) ≠ "healthy" := by decide
  have hwh : ("warning" : String) ≠ "healthy" := by decide
  by_cases h2 : 2 < l.length
  · rw [if_pos h2]
    refine ⟨⟨fun hc => absurd hc hch, fun h0 => absurd h0 (by omega)⟩,
            ⟨fun hc => absurd hc hcw, ?_⟩,
            ⟨fun _ => h2, fun _ => rfl⟩⟩
    rintro (h0 | h0) <;> exact absurd h0 (by omega)
  · rw [if_neg h2]
    by_cases hemp : l.isEmpty
    · have h0 : l.length = 0 := by
        cases l
        · rfl
        · simp [List.isEmpty] at hemp
      rw [if_pos hemp]
      refine ⟨⟨fun _ => h0, fun _ => rfl⟩,
              ⟨fun hc => absurd hc (Ne.symm hwh), ?_⟩,
              ⟨fun hc => absurd hc (Ne.symm hch), fun hgt => absurd hgt (by omega)⟩⟩
      rintro (h1 | h1) <;> exact absurd h1 (by omega)
    · have hpos : l.length ≠ 0 := by
        cases l
        · exact absurd rfl hemp
        · simp
      rw [if_neg hemp]
      exact ⟨⟨fun hc => absurd hc hwh, fun h0 => absurd h0 hpos⟩,
             ⟨fun _ => by omega, fun _ => rfl⟩,
             ⟨fun hc => absurd hc (Ne.symm hcw), fun hgt => absurd hgt h2⟩⟩

/-- C9: for every turn where think returns, handle_message hands the
whole returned mapping to the outgoing reply: the single reply value is
exactly the dict think built (with at most two keys, so the 4000-length
chunking branch is dead), it is never a bare string, and its response key
holds the reply text that was never extracted. -/
theorem c9_reply_receives_whole_mapping (env : BotEnv) (mem : Mem)
    (user msg : String) :
    handleMessageReplies env mem user msg
      = [thinkReturnValue (think env mem user msg)] ∧
    pyLen (thinkReturnValue (think env mem user msg)) ≤ 2 ∧
    (∀ s : String, thinkReturnValue (think env mem user msg) ≠ PyVal.str s) ∧
    pyDictGet ("response") (thinkReturnValue (think env mem user msg))
      = some (PyVal.str (think env mem user msg).response) := by
  rcases hv : (think env mem user msg).video with _ | m <;>
    simp [handleMessageReplies, thinkReturnValue, hv, pyLen, pyDictGet,
          entriesGet]

/-- C10: an unset TELEGRAM_ALLOWED_USERS parses to the empty whitelist,
and is_authorized accepts a user exactly when the whitelist is empty or
the decimal string of the user id appears in it. -/
theorem c10_allowed_users_authorization (envVal : Option String) (uid : Nat) :
    parseAllowedUsers none = [] ∧
    (is_authorized (parseAllowedUsers envVal) uid = true ↔
      (parseAllowedUsers envVal = [] ∨
        (toString uid) ∈ parseAllowedUsers envVal)) := by
  refine ⟨rfl, ?_⟩
  unfold is_authorized
  by_cases he : (parseAllowedUsers envVal).isEmpty
  · rw [if_pos he]
    have h0 : parseAllowedUsers envVal = [] := by
      cases hl : parseAllowedUsers envVal
      · rfl
      · rw [hl] at he; exact absurd he (by simp [List.isEmpty])
    simp [h0]
  · rw [if_neg he]
    have hne : parseAllowedUsers envVal ≠ [] := by
      intro h0; rw [h0] at he; exact he rfl
    simp [hne]

end Phoenix
